import Mathlib

/-!
Shallow embedding of the agent tool-calling runtime of this repository.

The embedded code:
* `BaseAgent` (the reusable agent class of `src/unnamed/part_000`): the
  `run()` tool-calling loop, `reset()`, `getStats()`.
* The parallel worker batch of `Orchestrator.run`
  (`src/agents/07_orchestrator_pattern.js`, lines 187-201).
* The debate composition of `src/unnamed/part_001`: `proAgent`, `conAgent`,
  `judgeAgent`, `runDebate`.

The external model gateway (`chat.sendMessage` / `model.generateContent`) is
modelled as an explicit function argument: a `Gateway` maps the full
conversation history to the model's next response, and an `Llm` maps a
system instruction and a prompt to generated text.  Promises are modelled by
totality (every call returns) plus, where timing matters, an explicit
latency cost model described at the corresponding definitions.
-/

/-- A part of a Gemini model response: either a text fragment or a
function-call request (`p.text` / `p.functionCall` in the JS SDK shapes
consumed by `BaseAgent.run`).  Arguments are kept as an opaque string since
the runtime never inspects them. -/
inductive RespPart
  | text (s : String)
  | functionCall (name : String) (args : String)
deriving DecidableEq, Repr

/-- A model gateway response: `response.response.candidates[0].content.parts`. -/
structure GResponse where
  parts : List RespPart
deriving DecidableEq, Repr

/-- The `response` field of a `functionResponse` part sent back to the model:
either the tool's return value, or the error payload
`\x7b error: err.message, tool: name \x7d` built in the `catch` branch of
`BaseAgent.run` (part_000 lines 102-107). -/
inductive ToolResponse
  | ok (value : String)
  | err (message : String) (tool : String)
deriving DecidableEq, Repr

/-- One entry of the `toolResults` array sent back to the model:
`\x7b functionResponse: \x7b name, response \x7d \x7d`. -/
structure FunctionResponse where
  name : String
  response : ToolResponse
deriving DecidableEq, Repr

/-- One turn of the chat history kept by `this.chat`: the user's message, a
batch of tool results sent via `chat.sendMessage(toolResults)`, or the
model's own reply parts. -/
inductive HistItem
  | user (msg : String)
  | toolResults (results : List FunctionResponse)
  | model (parts : List RespPart)
deriving DecidableEq, Repr

/-- The model gateway: given the full conversation history (ending with the
message just sent), produce the model's response.  This stands for the
network call hidden inside `chat.sendMessage`. -/
abbrev Gateway := List HistItem → GResponse

/-- A tool implementation from `config.toolFns`: it receives the (opaque)
argument record and either returns a value or throws, `Except.error m`
standing for a thrown/rejected fault with message `m`.  Totality of the
function models the C1 hypothesis that every tool call eventually returns. -/
abbrev ToolFn := String → Except String String

/-- A single requested tool invocation `p.functionCall` extracted from a
response part. -/
structure FnCall where
  name : String
  args : String
deriving DecidableEq, Repr

/-- The filter `parts.filter((p) => p.functionCall)` of `BaseAgent.run`
(line 74), keeping only the function-call requests. -/
def callsOf (parts : List RespPart) : List FnCall :=
  parts.filterMap fun p =>
    match p with
    | .functionCall n a => some ⟨n, a⟩
    | .text _ => none

/-- The projection `p.text || ""` used when assembling the final answer:
a text part contributes its text, a function-call part contributes `""`. -/
def partText : RespPart → String
  | .text s => s
  | .functionCall _ _ => ""

/-- The final-answer assembly `parts.map((p) => p.text || "").join("")`
(part_000 line 78). -/
def joinText (parts : List RespPart) : String :=
  String.join (parts.map partText)

/-- The message of the error thrown for an unregistered tool name
(part_000 line 98):
`Unknown tool: "<name>". Available: <comma-separated registered names>`. -/
def unknownToolMsg (fns : List (String × ToolFn)) (name : String) : String :=
  "Unknown tool: \"" ++ name ++ "\". Available: " ++
    String.intercalate ", " (fns.map Prod.fst)

/-- Execution of one tool call inside the `try`/`catch` of `BaseAgent.run`
(lines 96-107): look the name up in `toolFns`; an unregistered name throws
`Unknown tool: ...` which the `catch` converts to the error payload, a
registered tool is invoked and its own fault is likewise converted.  The
result type being `FunctionResponse` (not `Except`) embeds the fact that no
exception escapes the per-call wrapper. -/
def execCall (fns : List (String × ToolFn)) (c : FnCall) : FunctionResponse :=
  match fns.lookup c.name with
  | none => ⟨c.name, .err (unknownToolMsg fns c.name) c.name⟩
  | some f =>
    match f c.args with
    | .ok r => ⟨c.name, .ok r⟩
    | .error m => ⟨c.name, .err m c.name⟩

/-- The whole `toolResults` batch built by the `for (const p of calls)` loop
of `BaseAgent.run` (lines 90-108): one `functionResponse` per requested
call, pushed in request order. -/
def execCalls (fns : List (String × ToolFn)) (calls : List FnCall) :
    List FunctionResponse :=
  calls.map (execCall fns)

/-- Latency cost model of the same `for (const p of calls)` loop: each
iteration `await`s its call's promise before the next iteration begins, so
with `lat` assigning a latency to each tool the batch's wall-clock time is
accumulated sequentially.  The produced results are exactly `execCalls`. -/
def baseExecTimed (fns : List (String × ToolFn)) (lat : String → Nat) :
    List FnCall → List FunctionResponse × Nat
  | [] => ([], 0)
  | c :: rest =>
    let r := execCall fns c
    let p := baseExecTimed fns lat rest
    (r :: p.1, lat c.name + p.2)

/-- The result record returned by `BaseAgent.run`:
`\x7b success: true, response, steps \x7d` or
`\x7b success: false, error, steps \x7d` (the `elapsed` wall-clock field is
real time and is not modelled). -/
structure RunResult where
  success : Bool
  response : Option String := none
  error : Option String := none
  steps : Nat
deriving DecidableEq, Repr

/-- The failure message `Max steps (<maxSteps>) reached` (part_000 line 116). -/
def maxStepsError (maxSteps : Nat) : String :=
  "Max steps (" ++ toString maxSteps ++ ") reached"

/-- The state of a `BaseAgent` instance.  `systemPrompt` and `tools` are the
configuration baked into `this.geminiModel` at construction (the tool
declarations are opaque to the runtime, so only kept abstractly); `chat` is
the conversation history of `this.chat`. -/
structure BaseAgent where
  name : String := ""
  systemPrompt : String := ""
  tools : List String := []
  toolFns : List (String × ToolFn) := []
  maxSteps : Nat := 20
  stepCount : Nat := 0
  totalCalls : Nat := 0
  chat : List HistItem := []

/-- `chat.sendMessage(msg)` for a user message: the message is appended to
the history, the gateway is called on the resulting history, and the model's
reply is appended in turn.  Returns the response and the updated history. -/
def sendUser (gw : Gateway) (h : List HistItem) (msg : String) :
    GResponse × List HistItem :=
  let h1 := h ++ [HistItem.user msg]
  let r := gw h1
  (r, h1 ++ [HistItem.model r.parts])

/-- `chat.sendMessage(toolResults)` for a tool-result batch (part_000
line 111), analogous to `sendUser`. -/
def sendToolResults (gw : Gateway) (h : List HistItem)
    (results : List FunctionResponse) : GResponse × List HistItem :=
  let h1 := h ++ [HistItem.toolResults results]
  let r := gw h1
  (r, h1 ++ [HistItem.model r.parts])

/-- The `while (this.stepCount < this.maxSteps)` loop of `BaseAgent.run`
(lines 71-112), written as structural recursion on the remaining budget
`maxSteps - stepCount` (the loop guard), which also makes termination a
theorem of the embedding.  Per iteration: increment the step counter,
extract the calls; with no calls return the success record; otherwise
execute the batch, count it into `totalCalls`, send the results back and
continue with the new response.  When the budget is exhausted return the
`success: false` record of lines 114-118.  Returns the run result together
with the final `totalCalls` and chat history. -/
def runLoop (gw : Gateway) (fns : List (String × ToolFn)) (maxSteps : Nat) :
    Nat → Nat → Nat → List HistItem → GResponse →
    RunResult × Nat × List HistItem
  | 0, stepCount, totalCalls, h, _ =>
    (⟨false, none, some (maxStepsError maxSteps), stepCount⟩, totalCalls, h)
  | remaining + 1, stepCount, totalCalls, h, resp =>
    let calls := callsOf resp.parts
    if calls.isEmpty then
      (⟨true, some (joinText resp.parts), none, stepCount + 1⟩, totalCalls, h)
    else
      let results := execCalls fns calls
      let s := sendToolResults gw h results
      runLoop gw fns maxSteps remaining (stepCount + 1)
        (totalCalls + calls.length) s.2 s.1

/-- The optional context injection of `BaseAgent.run` (lines 65-67): the
context block (already serialized to a string) is appended to the user
message. -/
def fullMessage (userMessage : String) (context : Option String) : String :=
  match context with
  | none => userMessage
  | some c => userMessage ++ "\n\n[Context]:\n" ++ c

/-- `BaseAgent.run(userMessage, context)` (part_000 lines 59-119): reset the
per-run step counter, send the (context-augmented) user message, drive the
tool-calling loop.  Returns the result record and the updated agent state
(history, `stepCount`, `totalCalls`). -/
def BaseAgent.run (a : BaseAgent) (gw : Gateway) (userMessage : String)
    (context : Option String) : RunResult × BaseAgent :=
  let s := sendUser gw a.chat (fullMessage userMessage context)
  let out := runLoop gw a.toolFns a.maxSteps a.maxSteps 0 a.totalCalls s.2 s.1
  (out.1,
    { a with
        chat := out.2.2
        stepCount := out.1.steps
        totalCalls := out.2.1 })

/-- `BaseAgent.reset()` (part_000 lines 122-126): start a fresh chat on the
same `geminiModel` (same system prompt and tool declarations) and zero the
per-run step counter.  Nothing else is touched. -/
def BaseAgent.reset (a : BaseAgent) : BaseAgent :=
  { a with chat := [], stepCount := 0 }

/-- The record returned by `BaseAgent.getStats()` (part_000 lines 129-131). -/
structure Stats where
  totalCalls : Nat
  lastSteps : Nat
deriving DecidableEq, Repr

/-- `BaseAgent.getStats()`. -/
def BaseAgent.getStats (a : BaseAgent) : Stats :=
  ⟨a.totalCalls, a.stepCount⟩

/-- Number of model turns in a history; used to index scripted gateways. -/
def countModel : List HistItem → Nat
  | [] => 0
  | HistItem.model _ :: rest => countModel rest + 1
  | _ :: rest => countModel rest

/-- Entry `k` of a response script, defaulting to an empty response past the
end. -/
def scriptAt (script : List GResponse) (k : Nat) : GResponse :=
  script.getD k ⟨[]⟩

/-- A gateway stub that replays a fixed script of responses: the k-th
gateway call (counted via the model turns already in the history) returns
the k-th scripted response. -/
def scriptedGateway (script : List GResponse) : Gateway :=
  fun h => scriptAt script (countModel h)

/-- A worker implementation of `07_orchestrator_pattern.js`: a single-shot
model call, `Except.error` standing for a rejected promise. -/
abbrev WorkerFn := String → Except String String

/-- The `response` object of one `call_worker` function response in
`Orchestrator.run`: `\x7b worker, result \x7d` on success or
`\x7b worker, error: "Unknown worker: ..." \x7d` for an unregistered worker
name (lines 192-198). -/
inductive WorkerPayload
  | result (worker : String) (value : String)
  | unknown (worker : String) (error : String)
deriving DecidableEq, Repr

/-- One `call_worker` invocation requested by the orchestrator's model:
`p.functionCall.args` destructured as `\x7b worker, task \x7d`. -/
structure WorkerCall where
  worker : String
  task : String
deriving DecidableEq, Repr

/-- The body of one promise of the `calls.map(async (p) => ...)` batch in
`Orchestrator.run` (lines 187-199): an unknown worker name is converted to
an error payload, but a fault thrown by the worker function itself is NOT
caught — the promise rejects (`Except.error`). -/
def runWorker (workers : List (String × WorkerFn)) (c : WorkerCall) :
    Except String WorkerPayload :=
  match workers.lookup c.worker with
  | none => Except.ok (.unknown c.worker ("Unknown worker: " ++ c.worker))
  | some wf =>
    match wf c.task with
    | .ok r => Except.ok (.result c.worker r)
    | .error e => Except.error e

/-- `await Promise.all(workerPromises)` (line 201): the value observed by
the orchestrator loop is the index-aligned list of all payloads if every
promise fulfils, and a rejection otherwise — in the rejecting case the
sibling results are discarded and the fault escapes the batch step. -/
def orchExecuteBatch (workers : List (String × WorkerFn)) :
    List WorkerCall → Except String (List WorkerPayload)
  | [] => Except.ok []
  | c :: rest =>
    match runWorker workers c with
    | .error e => .error e
    | .ok r =>
      match orchExecuteBatch workers rest with
      | .error e => .error e
      | .ok rs => .ok (r :: rs)

/-- Latency cost model of the same `Promise.all` batch: all worker promises
run concurrently on the event loop, so the batch's wall-clock time is that
of the slowest single worker call. -/
def orchBatchElapsed (lat : String → Nat) (calls : List WorkerCall) : Nat :=
  (calls.map fun c => lat c.worker).foldr max 0

/-- A single-shot model generation of `src/unnamed/part_001`'s `llm(system,
prompt)` helper: system instruction and prompt in, generated text out. -/
abbrev Llm := String → String → String

/-- System instruction of the pro debater (part_001 lines 21-22). -/
def proSystem : String :=
  "You are a skilled debater arguing STRONGLY IN FAVOR of the given topic.\n     Be persuasive, use data/examples, max 200 words. Don't be wishy-washy."

/-- System instruction of the con debater (part_001 lines 34-35). -/
def conSystem : String :=
  "You are a skilled debater arguing STRONGLY AGAINST the given topic.\n     Be persuasive, use data/examples, max 200 words. Don't be wishy-washy."

/-- System instruction of the judge (part_001 lines 47-54). -/
def judgeSystem : String :=
  "You are an impartial judge evaluating a debate. Be objective and analytical.\n     Score each side 1-10 on: Evidence, Logic, Persuasiveness.\n     Give a final verdict with clear reasoning.\n     Format:\n     ## Scores\n     ## Key Takeaways from Each Side  \n     ## Final Verdict\n     ## Recommendation"

/-- Opening prompt of the pro debater (no opponent argument yet,
part_001 line 18). -/
def proOpen (topic context : String) : String :=
  "Make the strongest possible case FOR: \"" ++ topic ++ "\"\nContext: " ++
    context

/-- Opening prompt of the con debater (part_001 line 31). -/
def conOpen (topic context : String) : String :=
  "Make the strongest possible case AGAINST: \"" ++ topic ++ "\"\nContext: " ++
    context

/-- The rebuttal prompt template shared verbatim by both debaters
(part_001 lines 17 and 30): everything before the interpolated
`opponentArg`. -/
def oppPre (topic context : String) : String :=
  "Topic: \"" ++ topic ++ "\"\nContext: " ++ context ++
    "\n\nYour opponent said:\n\""

/-- The rebuttal prompt template: everything after the interpolated
`opponentArg`. -/
def oppPost : String :=
  "\"\n\nCounter their argument AND strengthen your position."

/-- Prompt construction of `proAgent` (part_001 lines 16-18): with an
opponent argument, the rebuttal template around it; otherwise the opening
case. -/
def proPrompt (topic context : String) : Option String → String
  | some arg => oppPre topic context ++ arg ++ oppPost
  | none => proOpen topic context

/-- Prompt construction of `conAgent` (part_001 lines 29-31). -/
def conPrompt (topic context : String) : Option String → String
  | some arg => oppPre topic context ++ arg ++ oppPost
  | none => conOpen topic context

/-- `proAgent(topic, context, opponentArg)` (part_001 lines 15-25). -/
def proAgent (llm : Llm) (topic context : String)
    (opponentArg : Option String) : String :=
  llm proSystem (proPrompt topic context opponentArg)

/-- `conAgent(topic, context, opponentArg)` (part_001 lines 28-38). -/
def conAgent (llm : Llm) (topic context : String)
    (opponentArg : Option String) : String :=
  llm conSystem (conPrompt topic context opponentArg)

/-- One round of the debate as pushed onto `debateRounds`
(part_001 line 84). -/
structure DebateRound where
  pro : String
  con : String
deriving DecidableEq, Repr

/-- One block of the judge's transcript (part_001 lines 42-44):
`=== Round <i> ===` then the FOR and AGAINST texts. -/
def roundBlock (i : Nat) (r : DebateRound) : String :=
  "=== Round " ++ toString i ++ " ===\nFOR: " ++ r.pro ++ "\n\nAGAINST: " ++
    r.con

/-- The transcript assembly
`rounds.map((r, i) => block(i + 1, r)).join("\n\n")` (part_001 lines 42-44),
written as recursion on the round list with the 1-based round index carried
along: the empty list joins to `""`, a single block stands alone, and later
blocks are separated by `"\n\n"`. -/
def transcriptFrom : Nat → List DebateRound → String
  | _, [] => ""
  | i, [r] => roundBlock i r
  | i, r :: rest => roundBlock i r ++ "\n\n" ++ transcriptFrom (i + 1) rest

/-- The full transcript handed to the judge, starting at round 1. -/
def transcript (rounds : List DebateRound) : String :=
  transcriptFrom 1 rounds

/-- The user prompt of `judgeAgent` (part_001 line 55). -/
def judgePrompt (topic context : String) (rounds : List DebateRound) :
    String :=
  "Topic: \"" ++ topic ++ "\"\nContext: " ++ context ++
    "\n\nDebate Transcript:\n" ++ transcript rounds

/-- `judgeAgent(topic, rounds, context)` (part_001 lines 41-57). -/
def judgeAgent (llm : Llm) (topic : String) (rounds : List DebateRound)
    (context : String) : String :=
  llm judgeSystem (judgePrompt topic context rounds)

/-- The `for (let i = 1; i <= rounds; i++)` loop of `runDebate`
(part_001 lines 71-88), recursion on the number of rounds still to run with
the `lastPro`/`lastCon` accumulators: the first iteration is entered with
`none`/`none` (round 1 passes `null` opponent arguments, the ternary
`i > 1 ? last... : null`), every later iteration receives the previous
round's outputs.  Each round runs `proAgent` on `lastCon` and `conAgent` on
`lastPro` and pushes the pair, in round order. -/
def debateLoop (llm : Llm) (topic context : String) :
    Nat → Option String → Option String → List DebateRound
  | 0, _, _ => []
  | n + 1, lastPro, lastCon =>
    let pro := proAgent llm topic context lastCon
    let con := conAgent llm topic context lastPro
    ⟨pro, con⟩ :: debateLoop llm topic context n (some pro) (some con)

/-- The record returned by `runDebate` (part_001 line 97). -/
structure DebateResult where
  topic : String
  rounds : List DebateRound
  verdict : String
deriving Repr

/-- `runDebate(\x7b topic, context, rounds \x7d)` (part_001 lines 60-98):
run all rounds to completion, then hand the accumulated rounds to the
judge. -/
def runDebate (llm : Llm) (topic context : String) (rounds : Nat) :
    DebateResult :=
  let debateRounds := debateLoop llm topic context rounds none none
  { topic := topic, rounds := debateRounds,
    verdict := judgeAgent llm topic debateRounds context }

/-- Rebuttal wiring of a round list: every round after the first was
produced from its predecessor's outputs — the pro text of round `i + 1` is
the pro debater's rebuttal of round `i`'s con text (which therefore appears
verbatim between the rebuttal template halves), and symmetrically for the
con text. -/
def rebuttalWired (llm : Llm) (topic context : String)
    (rs : List DebateRound) : Prop :=
  ∀ i r r', rs[i]? = some r → rs[i + 1]? = some r' →
    r'.pro = llm proSystem (oppPre topic context ++ r.con ++ oppPost) ∧
    r'.con = llm conSystem (oppPre topic context ++ r.pro ++ oppPost)

/-- The strings `xs` occur inside `s` as disjoint substrings in the given
order: used to state that a transcript contains all round texts in round
order. -/
def containsInOrder : List String → String → Prop
  | [], _ => True
  | x :: xs, s => ∃ pre rest, s = pre ++ x ++ rest ∧ containsInOrder xs rest

/-- Concrete gateway stub that requests a tool call on every round-trip and
never emits a final answer. -/
def c1Gw : Gateway := fun _ => ⟨[.functionCall "echo" "x"]⟩

/-- Concrete agent with a step budget of 2. -/
def c1Agent : BaseAgent :=
  { toolFns := [("echo", fun a => Except.ok a)], maxSteps := 2 }

/-- Concrete tool registry for the timing scenario. -/
def c2Fns : List (String × ToolFn) :=
  [("fast", fun _ => Except.ok "f"), ("slow", fun _ => Except.ok "s")]

/-- Concrete latency assignment: both tools take 1 time unit. -/
def c2Lat : String → Nat := fun _ => 1

/-- Concrete two-call batch for the timing scenario. -/
def c2Calls : List FnCall := [⟨"fast", ""⟩, ⟨"slow", ""⟩]

/-- Concrete well-behaved tool. -/
def c3Ok : ToolFn := fun a => Except.ok ("V:" ++ a)

/-- Concrete throwing tool. -/
def c3Bad : ToolFn := fun _ => Except.error "tool blew up"

/-- Concrete registry with one good and one throwing tool. -/
def c3Fns : List (String × ToolFn) := [("ok1", c3Ok), ("bad", c3Bad)]

/-- Concrete orchestrator workers: `beta`'s model call rejects. -/
def c3Workers : List (String × WorkerFn) :=
  [("alpha", fun t => Except.ok ("A:" ++ t)),
   ("beta", fun _ => Except.error "boom")]

/-- Concrete orchestrator batch in which the middle worker rejects. -/
def c3WCalls : List WorkerCall :=
  [⟨"alpha", "t1"⟩, ⟨"beta", "t2"⟩, ⟨"alpha", "t3"⟩]

/-- Concrete registry without the tool named `nope`. -/
def c4Fns : List (String × ToolFn) := [("good", fun a => Except.ok a)]

/-- Concrete gateway answering with final text. -/
def c4Gw : Gateway := fun _ => ⟨[.text "ok"]⟩

/-- Concrete model response requesting the unregistered tool `nope`. -/
def c4Resp : GResponse := ⟨[.functionCall "nope" ""]⟩

/-- Concrete registry for the order-preservation scenario. -/
def c5Fns : List (String × ToolFn) :=
  [("add", fun a => Except.ok ("sum:" ++ a)),
   ("mul", fun a => Except.ok ("prod:" ++ a))]

/-- Concrete latencies: the first call is fast, the second slow. -/
def c5Lat : String → Nat := fun n => if n = "add" then 2 else 9

/-- Concrete batch of three calls, the last one unregistered. -/
def c5Calls : List FnCall := [⟨"add", "5,3"⟩, ⟨"mul", "8,4"⟩, ⟨"missing", ""⟩]

/-- Concrete orchestrator workers that both fulfil. -/
def c5Workers : List (String × WorkerFn) :=
  [("coder", fun t => Except.ok ("code:" ++ t)),
   ("writer", fun t => Except.ok ("text:" ++ t))]

/-- Concrete orchestrator batch of two worker calls. -/
def c5WCalls : List WorkerCall := [⟨"coder", "auth"⟩, ⟨"writer", "docs"⟩]

/-- Concrete agent for the finality scenario. -/
def c6Agent : BaseAgent :=
  { toolFns := [("t", fun a => Except.ok ("r:" ++ a))], maxSteps := 5 }

/-- Concrete script: the first response carries text AND a tool call (so it
is not final and its text must not be emitted), the second is tool-free. -/
def c6Script : List GResponse :=
  [⟨[.text "working on it", .functionCall "t" "x"]⟩,
   ⟨[.text "final ", .text "answer"]⟩]

/-- Concrete tool registry shared by the two reset-scenario agents. -/
def c7Fns : List (String × ToolFn) := [("t", fun a => Except.ok a)]

/-- Concrete agent carrying a stale prior session (history, step counter,
call counter). -/
def c7A : BaseAgent :=
  { toolFns := c7Fns, maxSteps := 4,
    chat := [HistItem.user "old question",
             HistItem.model [.text "old reply"],
             HistItem.toolResults [⟨"t", .ok "old result"⟩]],
    stepCount := 3, totalCalls := 7 }

/-- Concrete agent with the same configuration but no prior session. -/
def c7B : BaseAgent := { toolFns := c7Fns, maxSteps := 4 }

/-- Concrete gateway for the reset scenario. -/
def c7Gw : Gateway := fun _ => ⟨[.text "hello"]⟩

/-- Concrete deterministic generation stub for the debate scenario. -/
def c8Llm : Llm := fun _ p => "gen(" ++ toString p.length ++ ")"

/-- Concrete agent with a zero step budget. -/
def c9Agent : BaseAgent := { maxSteps := 0 }

/-- Concrete gateway whose very first response is tool-free. -/
def c9Gw : Gateway := fun _ => ⟨[.text "done"]⟩

/-- Concrete agent with the default step budget. -/
def c9Agent2 : BaseAgent := { maxSteps := 20 }

/-!
Theorems.  Helper lemmas come first, then one main theorem per claim, with
witnesses and counterexamples where applicable.
-/

/-- A non-empty list has `isEmpty = false`. -/
theorem isEmpty_false_of_ne_nil {l : List FnCall} (h : l ≠ []) :
    l.isEmpty = false := by
  cases l with
  | nil => exact absurd rfl h
  | cons a l => rfl

/-- If the gateway requests a tool call on every round-trip, the loop runs
its remaining budget down to zero and reports failure with the step counter
fully advanced. -/
theorem runLoop_allCalls (gw : Gateway) (fns : List (String × ToolFn))
    (ms : Nat) (hall : ∀ h, callsOf (gw h).parts ≠ []) (remaining : Nat) :
    ∀ (sc tc : Nat) (h : List HistItem) (resp : GResponse),
      callsOf resp.parts ≠ [] →
      (runLoop gw fns ms remaining sc tc h resp).1 =
        ⟨false, none, some (maxStepsError ms), sc + remaining⟩ := by
  induction remaining with
  | zero => intro sc tc h resp _; simp [runLoop]
  | succ r ih =>
    intro sc tc h resp hne
    simp only [runLoop, isEmpty_false_of_ne_nil hne, Bool.false_eq_true,
      if_false, sendToolResults]
    rw [show sc + (r + 1) = sc + 1 + r by omega] at *
    exact ih (sc + 1) _ _ _ (hall _)

/-- Claim C1: with a gateway that requests at least one tool call on every
round-trip (and tools that always return, which the total `ToolFn` type
builds in), `run()` terminates — the embedding is a total function — and
returns the `success: false` record whose `steps` field equals `maxSteps`,
for every `maxSteps ≥ 0`. -/
theorem run_stepBudget_enforced (a : BaseAgent) (gw : Gateway) (msg : String)
    (ctx : Option String) (hall : ∀ h, callsOf (gw h).parts ≠ []) :
    (a.run gw msg ctx).1 =
      ⟨false, none, some (maxStepsError a.maxSteps), a.maxSteps⟩ := by
  simp only [BaseAgent.run, sendUser]
  simpa using runLoop_allCalls gw a.toolFns a.maxSteps hall a.maxSteps 0
    a.totalCalls _ _ (hall _)

/-- Witness for C1 at a concrete agent and always-calling gateway. -/
theorem run_stepBudget_enforced_witness :
    (c1Agent.run c1Gw "hi" none).1 =
      ⟨false, none, some (maxStepsError 2), 2⟩ :=
  run_stepBudget_enforced c1Agent c1Gw "hi" none
    (fun h => by simp only [c1Gw]; decide)

/-- The run result (though not the returned agent state) is unaffected by
the incoming `totalCalls` counter. -/
theorem runLoop_result_tc_irrel (gw : Gateway) (fns : List (String × ToolFn))
    (ms remaining : Nat) :
    ∀ (sc tc tc' : Nat) (h : List HistItem) (resp : GResponse),
      (runLoop gw fns ms remaining sc tc h resp).1 =
        (runLoop gw fns ms remaining sc tc' h resp).1 := by
  induction remaining with
  | zero => intros; simp [runLoop]
  | succ r ih =>
    intro sc tc tc' h resp
    by_cases hc : (callsOf resp.parts).isEmpty
    · simp [runLoop, hc]
    · simp only [runLoop, Bool.not_eq_true] at *
      simp only [hc, Bool.false_eq_true, if_false]
      exact ih _ _ _ _ _

/-- Claim C7: `reset()` empties the conversation, so the first gateway call
of the next `run("x")` sees exactly the single new user turn; the tool
registry, system prompt and tool declarations survive the reset; and the
result of the fresh run is independent of whatever session (history, step
counter, call counter) the agent had before the reset. -/
theorem reset_then_run_is_fresh (a b : BaseAgent) (gw : Gateway)
    (msg : String) (ctx : Option String) (hf : a.toolFns = b.toolFns)
    (hm : a.maxSteps = b.maxSteps) :
    (a.reset).chat = [] ∧
    (a.reset).toolFns = a.toolFns ∧
    (a.reset).systemPrompt = a.systemPrompt ∧
    (a.reset).tools = a.tools ∧
    (a.reset).chat ++ [HistItem.user (fullMessage msg ctx)] =
      [HistItem.user (fullMessage msg ctx)] ∧
    ((a.reset).run gw msg ctx).1 = ((b.reset).run gw msg ctx).1 := by
  refine ⟨rfl, rfl, rfl, rfl, rfl, ?_⟩
  simp only [BaseAgent.run, BaseAgent.reset, sendUser]
  rw [hf, hm]
  exact runLoop_result_tc_irrel gw b.toolFns b.maxSteps b.maxSteps 0
    a.totalCalls b.totalCalls _ _

/-- Witness for C7: an agent with a stale session and a fresh twin. -/
theorem reset_then_run_is_fresh_witness :
    (c7A.reset).chat = [] ∧
    (c7A.reset).toolFns = c7A.toolFns ∧
    (c7A.reset).systemPrompt = c7A.systemPrompt ∧
    (c7A.reset).tools = c7A.tools ∧
    (c7A.reset).chat ++ [HistItem.user (fullMessage "x" none)] =
      [HistItem.user (fullMessage "x" none)] ∧
    ((c7A.reset).run c7Gw "x" none).1 = ((c7B.reset).run c7Gw "x" none).1 :=
  reset_then_run_is_fresh c7A c7B c7Gw "x" none rfl rfl

/-- The loop never decreases the `totalCalls` counter. -/
theorem runLoop_totalCalls_mono (gw : Gateway) (fns : List (String × ToolFn))
    (ms remaining : Nat) :
    ∀ (sc tc : Nat) (h : List HistItem) (resp : GResponse),
      tc ≤ (runLoop gw fns ms remaining sc tc h resp).2.1 := by
  induction remaining with
  | zero => intros; simp [runLoop]
  | succ r ih =>
    intro sc tc h resp
    by_cases hc : (callsOf resp.parts).isEmpty
    · simp [runLoop, hc]
    · simp only [runLoop, Bool.not_eq_true] at *
      simp only [hc, Bool.false_eq_true, if_false]
      exact le_trans (Nat.le_add_right _ _) (ih _ _ _ _)

/-- Claim C10: `reset()` rewrites exactly the conversation and the per-run
step counter and nothing else — in particular `totalCalls` survives — and
`run()` can only grow `totalCalls`, so `getStats().totalCalls` is
monotonically non-decreasing across `run()` and `reset()` boundaries. -/
theorem reset_keeps_totalCalls (a : BaseAgent) (gw : Gateway) (msg : String)
    (ctx : Option String) :
    a.reset = { a with chat := [], stepCount := 0 } ∧
    (a.reset).getStats.totalCalls = a.getStats.totalCalls ∧
    a.getStats.totalCalls ≤ ((a.run gw msg ctx).2).getStats.totalCalls := by
  refine ⟨rfl, rfl, ?_⟩
  exact runLoop_totalCalls_mono gw a.toolFns a.maxSteps a.maxSteps 0
    a.totalCalls _ _

/-- Claim C9 counterexample: with `maxSteps = 0` the loop body never runs,
so even a tool-free first response yields `success: false` with `steps = 0`
— not `success: true` with `steps = 1` as the claim states. -/
theorem run_zero_budget_counterexample :
    (c9Agent.run c9Gw "q" none).1 = ⟨false, none, some (maxStepsError 0), 0⟩ :=
  rfl

/-- Claim C9 (amended: requires `maxSteps ≥ 1`): if the very first gateway
response contains zero tool-invocation requests, `run()` returns
`success: true` with `steps = 1` — the counter is incremented once before
the response is inspected. -/
theorem run_firstFinal_one_step (a : BaseAgent) (gw : Gateway) (msg : String)
    (ctx : Option String) (h1 : 1 ≤ a.maxSteps)
    (hfin : callsOf (gw (a.chat ++ [HistItem.user (fullMessage msg ctx)])).parts
      = []) :
    (a.run gw msg ctx).1 =
      ⟨true,
        some (joinText (gw (a.chat ++
          [HistItem.user (fullMessage msg ctx)])).parts),
        none, 1⟩ := by
  obtain ⟨k, hk⟩ : ∃ k, a.maxSteps = k + 1 := ⟨a.maxSteps - 1, by omega⟩
  simp only [BaseAgent.run, sendUser, hk, runLoop]
  simp [hfin]

/-- Witness for the amended C9 at a concrete agent and gateway. -/
theorem run_firstFinal_one_step_witness :
    (c9Agent2.run c9Gw "q" none).1 = ⟨true, some "done", none, 1⟩ :=
  run_firstFinal_one_step c9Agent2 c9Gw "q" none (by decide) rfl

/-- The unknown-tool message starts with `Unknown tool: ` immediately
followed by the quoted name. -/
theorem unknownToolMsg_shape (fns : List (String × ToolFn)) (name : String) :
    unknownToolMsg fns name =
      "Unknown tool: " ++ ("\"" ++ name ++ "\"") ++
        (". Available: " ++ String.intercalate ", " (fns.map Prod.fst)) := by
  have h1 : ("Unknown tool: " : String) ++ "\"" = "Unknown tool: \"" := rfl
  have h2 : ("\"" : String) ++ ". Available: " = "\". Available: " := rfl
  simp only [unknownToolMsg, ← h1, ← h2, String.append_assoc]

/-- Claim C4: a requested tool name absent from `toolFns` does not crash the
runtime: the corresponding result slot is the error payload whose message is
`Unknown tool: ` followed by the (quoted) requested name and the list of
available tools, and the loop continues — the batch, error payloads
included, is sent back to the gateway as conversation data and the next
iteration proceeds. -/
theorem unknown_tool_is_safe (fns : List (String × ToolFn))
    (name args : String) (hnone : fns.lookup name = none) (gw : Gateway)
    (ms remaining sc tc : Nat) (hist : List HistItem) (resp : GResponse)
    (hcalls : (callsOf resp.parts).isEmpty = false) :
    execCall fns ⟨name, args⟩ =
      ⟨name, .err (unknownToolMsg fns name) name⟩ ∧
    unknownToolMsg fns name =
      "Unknown tool: " ++ ("\"" ++ name ++ "\"") ++
        (". Available: " ++ String.intercalate ", " (fns.map Prod.fst)) ∧
    runLoop gw fns ms (remaining + 1) sc tc hist resp =
      runLoop gw fns ms remaining (sc + 1)
        (tc + (callsOf resp.parts).length)
        ((hist ++ [HistItem.toolResults (execCalls fns (callsOf resp.parts))])
          ++ [HistItem.model (gw (hist ++ [HistItem.toolResults
                (execCalls fns (callsOf resp.parts))])).parts])
        (gw (hist ++
          [HistItem.toolResults (execCalls fns (callsOf resp.parts))])) := by
  refine ⟨?_, unknownToolMsg_shape fns name, ?_⟩
  · simp [execCall, hnone]
  · simp only [runLoop, hcalls, Bool.false_eq_true, if_false, sendToolResults]

/-- Witness for C4: requesting the unregistered tool `nope`. -/
theorem unknown_tool_is_safe_witness :
    execCall c4Fns ⟨"nope", ""⟩ =
      ⟨"nope", .err (unknownToolMsg c4Fns "nope") "nope"⟩ ∧
    unknownToolMsg c4Fns "nope" =
      "Unknown tool: " ++ ("\"" ++ "nope" ++ "\"") ++
        (". Available: " ++ String.intercalate ", " (c4Fns.map Prod.fst)) ∧
    runLoop c4Gw c4Fns 3 (2 + 1) 0 0 [] c4Resp =
      runLoop c4Gw c4Fns 3 2 (0 + 1) (0 + (callsOf c4Resp.parts).length)
        (([] ++ [HistItem.toolResults (execCalls c4Fns (callsOf c4Resp.parts))])
          ++ [HistItem.model (c4Gw ([] ++ [HistItem.toolResults
                (execCalls c4Fns (callsOf c4Resp.parts))])).parts])
        (c4Gw ([] ++
          [HistItem.toolResults (execCalls c4Fns (callsOf c4Resp.parts))])) :=
  unknown_tool_is_safe c4Fns "nope" "" rfl c4Gw 3 2 0 0 [] c4Resp rfl

/-- Claim C3 (amended: the per-invocation fault isolation holds for the
`BaseAgent.run` batch executor, while the orchestrator's batch lacks it, see
the counterexample): in a `BaseAgent.run` turn, a throwing tool's fault is
caught for that invocation alone and becomes the error payload
(message and tool name) in its own result slot, while every sibling call
before and after it produces exactly its normal result; the batch is a total
list of results, so no exception escapes the batch-execution step. -/
theorem base_fault_isolation (fns : List (String × ToolFn))
    (pre post : List FnCall) (name args m : String) (f : ToolFn)
    (hf : fns.lookup name = some f) (hm : f args = Except.error m) :
    execCalls fns (pre ++ ⟨name, args⟩ :: post) =
      execCalls fns pre ++ ⟨name, .err m name⟩ :: execCalls fns post := by
  simp [execCalls, execCall, hf, hm]

/-- Witness for the amended C3: the throwing tool `bad` between two calls of
the healthy tool `ok1`. -/
theorem base_fault_isolation_witness :
    execCalls c3Fns ([⟨"ok1", "a"⟩] ++ ⟨"bad", "z"⟩ :: [⟨"ok1", "b"⟩]) =
      execCalls c3Fns [⟨"ok1", "a"⟩] ++
        ⟨"bad", .err "tool blew up" "bad"⟩ :: execCalls c3Fns [⟨"ok1", "b"⟩] :=
  base_fault_isolation c3Fns [⟨"ok1", "a"⟩] [⟨"ok1", "b"⟩] "bad" "z"
    "tool blew up" c3Bad rfl rfl

/-- Claim C3 counterexample: in `Orchestrator.run` a rejecting worker is not
caught per invocation — the whole `Promise.all` batch rejects, the sibling
results (here `alpha`'s two) are discarded and the fault escapes the
batch-execution step, contrary to the claim for the cited orchestrator
code. -/
theorem orch_fault_escapes_counterexample :
    orchExecuteBatch c3Workers c3WCalls = Except.error "boom" := rfl

/-- The timed sequential executor produces exactly the untimed batch
results, whatever the latencies. -/
theorem baseExecTimed_fst (fns : List (String × ToolFn)) (lat : String → Nat) :
    ∀ calls : List FnCall,
      (baseExecTimed fns lat calls).1 = execCalls fns calls := by
  intro calls
  induction calls with
  | nil => rfl
  | cons c cs ih => simp [baseExecTimed, execCalls, List.map_cons] at *
                    exact ih

/-- The sequential executor's wall-clock time is the sum of the batch's
latencies. -/
theorem baseExecTimed_snd (fns : List (String × ToolFn)) (lat : String → Nat) :
    ∀ calls : List FnCall,
      (baseExecTimed fns lat calls).2 = (calls.map fun c => lat c.name).sum := by
  intro calls
  induction calls with
  | nil => rfl
  | cons c cs ih => simp [baseExecTimed, ih]

/-- The maximum of a list of naturals is at most their sum. -/
theorem foldr_max_le_sum (l : List Nat) : l.foldr max 0 ≤ l.sum := by
  induction l with
  | nil => simp
  | cons x xs ih =>
    simp only [List.foldr_cons, List.sum_cons]
    exact max_le (Nat.le_add_right _ _) (le_trans ih (Nat.le_add_left _ _))

/-- Claim C2 counterexample: for a turn with two independent tool calls of
one time unit each, the `for`/`await` loop of `BaseAgent.run` takes 2 time
units — the sum — while the slowest single call takes 1, so the cited
runtime does serialize independent invocations instead of letting the batch
scale with the slowest call. -/
theorem base_serializes_counterexample :
    (baseExecTimed c2Fns c2Lat c2Calls).2 = 2 ∧
    (c2Calls.map fun c => c2Lat c.name).foldr max 0 = 1 ∧
    (baseExecTimed c2Fns c2Lat c2Calls).2 ≠
      (c2Calls.map fun c => c2Lat c.name).foldr max 0 := by
  refine ⟨rfl, rfl, ?_⟩
  decide

/-- Claim C2 (amended): only `Orchestrator.run` dispatches a turn's calls
concurrently — its `Promise.all` batch completes in the slowest single
worker's time (`orchBatchElapsed`, the maximum of the latencies, bounded by
their sum) — whereas `BaseAgent.run` awaits each tool call before starting
the next, so its batch takes the sum of the latencies; in both cases the
produced results are independent of the timing. -/
theorem timed_execution_model (fns : List (String × ToolFn))
    (lat : String → Nat) (calls : List FnCall) (wlat : String → Nat)
    (wcalls : List WorkerCall) :
    (baseExecTimed fns lat calls).2 = (calls.map fun c => lat c.name).sum ∧
    (baseExecTimed fns lat calls).1 = execCalls fns calls ∧
    orchBatchElapsed wlat wcalls ≤
      (wcalls.map fun c => wlat c.worker).sum :=
  ⟨baseExecTimed_snd fns lat calls, baseExecTimed_fst fns lat calls,
    foldr_max_le_sum _⟩

/-- A fulfilled `Promise.all` batch pairs requests with results index by
index. -/
theorem orchExecuteBatch_ok_forall2 (workers : List (String × WorkerFn)) :
    ∀ (calls : List WorkerCall) (rs : List WorkerPayload),
      orchExecuteBatch workers calls = Except.ok rs →
      List.Forall₂ (fun c r => runWorker workers c = Except.ok r) calls rs := by
  intro calls
  induction calls with
  | nil =>
    intro rs h
    simp only [orchExecuteBatch, Except.ok.injEq] at h
    rw [← h]
    exact List.Forall₂.nil
  | cons c cs ih =>
    intro rs h
    rcases hw : runWorker workers c with e | r
    · simp [orchExecuteBatch, hw] at h
    · rcases hb : orchExecuteBatch workers cs with e2 | rs2
      · simp [orchExecuteBatch, hw, hb] at h
      · simp only [orchExecuteBatch, hw, hb, Except.ok.injEq] at h
        rw [← h]
        exact List.Forall₂.cons hw (ih rs2 hb)

/-- The BaseAgent batch pairs requests with results index by index. -/
theorem execCalls_forall2 (fns : List (String × ToolFn)) :
    ∀ calls : List FnCall,
      List.Forall₂ (fun c r => execCall fns c = r) calls
        (execCalls fns calls) := by
  intro calls
  induction calls with
  | nil => exact List.Forall₂.nil
  | cons c cs ih => exact List.Forall₂.cons rfl ih

/-- Claim C5: in both executors the result list sent back to the gateway has
the same length as the request list and pairs result `k` with request `k`:
the BaseAgent batch is the index-aligned map of `execCall` (unchanged by any
latency assignment), and a fulfilled orchestrator `Promise.all` batch pairs
each worker call with its own payload in request order, completion order
being immaterial in either model. -/
theorem batch_order_preserved (fns : List (String × ToolFn))
    (lat : String → Nat) (calls : List FnCall)
    (workers : List (String × WorkerFn)) (wcalls : List WorkerCall)
    (rs : List WorkerPayload)
    (hok : orchExecuteBatch workers wcalls = Except.ok rs) :
    (execCalls fns calls).length = calls.length ∧
    List.Forall₂ (fun c r => execCall fns c = r) calls (execCalls fns calls) ∧
    (baseExecTimed fns lat calls).1 = execCalls fns calls ∧
    rs.length = wcalls.length ∧
    List.Forall₂ (fun c r => runWorker workers c = Except.ok r) wcalls rs := by
  have h2 := orchExecuteBatch_ok_forall2 workers wcalls rs hok
  exact ⟨List.length_map _ _, execCalls_forall2 fns calls,
    baseExecTimed_fst fns lat calls, h2.length_eq.symm, h2⟩

/-- Witness for C5 at concrete batches for both executors. -/
theorem batch_order_preserved_witness :
    (execCalls c5Fns c5Calls).length = c5Calls.length ∧
    List.Forall₂ (fun c r => execCall c5Fns c = r) c5Calls
      (execCalls c5Fns c5Calls) ∧
    (baseExecTimed c5Fns c5Lat c5Calls).1 = execCalls c5Fns c5Calls ∧
    (List.length [WorkerPayload.result "coder" "code:auth",
      WorkerPayload.result "writer" "text:docs"]) = c5WCalls.length ∧
    List.Forall₂ (fun c r => runWorker c5Workers c = Except.ok r) c5WCalls
      [WorkerPayload.result "coder" "code:auth",
       WorkerPayload.result "writer" "text:docs"] :=
  batch_order_preserved c5Fns c5Lat c5Calls c5Workers c5WCalls
    [WorkerPayload.result "coder" "code:auth",
     WorkerPayload.result "writer" "text:docs"] rfl


/-- Counting model turns distributes over append. -/
theorem countModel_append (h1 h2 : List HistItem) :
    countModel (h1 ++ h2) = countModel h1 + countModel h2 := by
  induction h1 with
  | nil => simp [countModel]
  | cons x rest ih => cases x <;> (simp [countModel, ih]; try omega)

/-- Driving the loop against a scripted gateway: if the current response is
entry `i` of the script, entries `i` to `i + d - 1` all request tool calls,
entry `i + d` is the first tool-free one, and the budget allows `d` more
tool-executing round-trips, then the loop succeeds with entry `i + d`'s
concatenated text after `d + 1` further steps — the texts of the
call-bearing responses in between are never emitted. -/
theorem runLoop_scripted (script : List GResponse)
    (fns : List (String × ToolFn)) (ms : Nat) :
    ∀ (d i remaining sc tc : Nat) (h : List HistItem),
      countModel h = i + 1 →
      (∀ j, j < d → callsOf (scriptAt script (i + j)).parts ≠ []) →
      callsOf (scriptAt script (i + d)).parts = [] →
      d < remaining →
      (runLoop (scriptedGateway script) fns ms remaining sc tc h
        (scriptAt script i)).1 =
        ⟨true, some (joinText (scriptAt script (i + d)).parts), none,
          sc + d + 1⟩ := by
  intro d
  induction d with
  | zero =>
    intro i remaining sc tc h hcm hcalls hfin hlt
    obtain ⟨r, rfl⟩ : ∃ r, remaining = r + 1 := ⟨remaining - 1, by omega⟩
    simp only [Nat.add_zero] at hfin ⊢
    simp only [runLoop]
    rw [hfin]
    rfl
  | succ d ih =>
    intro i remaining sc tc h hcm hcalls hfin hlt
    obtain ⟨r, rfl⟩ : ∃ r, remaining = r + 1 := ⟨remaining - 1, by omega⟩
    have h0 : callsOf (scriptAt script (i + 0)).parts ≠ [] :=
      hcalls 0 (by omega)
    rw [Nat.add_zero] at h0
    simp only [runLoop, isEmpty_false_of_ne_nil h0, Bool.false_eq_true,
      if_false, sendToolResults]
    have hcm1 : countModel (h ++ [HistItem.toolResults
        (execCalls fns (callsOf (scriptAt script i).parts))]) = i + 1 := by
      simp [countModel_append, countModel, hcm]
    have hgw1 : scriptedGateway script (h ++ [HistItem.toolResults
        (execCalls fns (callsOf (scriptAt script i).parts))]) =
        scriptAt script (i + 1) := by
      simp [scriptedGateway, hcm1]
    rw [hgw1]
    have hcm2 : countModel ((h ++ [HistItem.toolResults
        (execCalls fns (callsOf (scriptAt script i).parts))]) ++
        [HistItem.model (scriptAt script (i + 1)).parts]) = (i + 1) + 1 := by
      simp [countModel_append, countModel, hcm]
    have hc' : ∀ j, j < d →
        callsOf (scriptAt script (i + 1 + j)).parts ≠ [] := by
      intro j hj
      have hx := hcalls (j + 1) (by omega)
      rwa [show i + (j + 1) = i + 1 + j by omega] at hx
    have hf' : callsOf (scriptAt script (i + 1 + d)).parts = [] := by
      rwa [show i + 1 + d = i + (d + 1) by omega]
    rw [show i + (d + 1) = i + 1 + d by omega,
      show sc + (d + 1) + 1 = sc + 1 + d + 1 by omega]
    exact ih (i + 1) r (sc + 1)
      (tc + (callsOf (scriptAt script i).parts).length) _ hcm2 hc' hf'
      (by omega)

/-- Claim C6: `run()` treats a gateway response as final exactly when it
contains zero tool-invocation requests — every earlier call-bearing
response keeps the loop going and its accompanying text is not emitted —
and the success text is the concatenation of all text fragments of the
first zero-call response. -/
theorem run_final_iff_no_calls (a : BaseAgent) (script : List GResponse)
    (msg : String) (d : Nat) (hchat : a.chat = []) (hd : d < a.maxSteps)
    (hcalls : ∀ j, j < d → callsOf (scriptAt script j).parts ≠ [])
    (hfin : callsOf (scriptAt script d).parts = []) :
    (a.run (scriptedGateway script) msg none).1 =
      ⟨true, some (joinText (scriptAt script d).parts), none, d + 1⟩ := by
  simp only [BaseAgent.run, sendUser, hchat, List.nil_append]
  have hgw0 : scriptedGateway script [HistItem.user (fullMessage msg none)] =
      scriptAt script 0 := by
    simp [scriptedGateway, countModel]
  rw [hgw0]
  have hcm : countModel ([HistItem.user (fullMessage msg none)] ++
      [HistItem.model (scriptAt script 0).parts]) = 0 + 1 := by
    simp [countModel]
  have hmain := runLoop_scripted script a.toolFns a.maxSteps d 0 a.maxSteps 0
    a.totalCalls ([HistItem.user (fullMessage msg none)] ++
      [HistItem.model (scriptAt script 0).parts]) hcm
    (by intro j hj; simpa using hcalls j hj) (by simpa using hfin) hd
  simpa using hmain

/-- Witness for C6: the first scripted response carries both text and a tool
call, so it is not final and its text is dropped; the second, tool-free
response supplies the answer, concatenated from its two fragments. -/
theorem run_final_iff_no_calls_witness :
    (c6Agent.run (scriptedGateway c6Script) "go" none).1 =
      ⟨true, some "final answer", none, 2⟩ :=
  run_final_iff_no_calls c6Agent c6Script "go" 1 rfl (by decide)
    (fun j hj => by
      have hj0 : j = 0 := by omega
      subst hj0
      decide)
    rfl

/-- Ordered containment is stable under prefixing. -/
theorem containsInOrder_append_left (xs : List String) (p t : String)
    (h : containsInOrder xs t) : containsInOrder xs (p ++ t) := by
  cases xs with
  | nil => trivial
  | cons x xs =>
    obtain ⟨pre, rest, hs, hrest⟩ := h
    exact ⟨p ++ pre, rest, by rw [hs]; simp [String.append_assoc], hrest⟩

/-- The transcript contains every round's FOR text and AGAINST text, in
round order. -/
theorem transcriptFrom_contains (rs : List DebateRound) :
    ∀ i, containsInOrder (rs.flatMap fun r => [r.pro, r.con])
      (transcriptFrom i rs) := by
  induction rs with
  | nil =>
    intro i
    simp [containsInOrder]
  | cons r rest ih =>
    intro i
    cases rest with
    | nil =>
      simp only [List.flatMap_cons, List.flatMap_nil, List.cons_append,
        List.nil_append, List.append_nil, containsInOrder]
      refine ⟨"=== Round " ++ toString i ++ " ===\nFOR: ",
        "\n\nAGAINST: " ++ r.con, ?_, "\n\nAGAINST: ", "", ?_, trivial⟩
      · simp [transcriptFrom, roundBlock, String.append_assoc]
      · simp [String.append_assoc]
    | cons r2 rest2 =>
      simp only [List.flatMap_cons, List.cons_append, containsInOrder]
      refine ⟨"=== Round " ++ toString i ++ " ===\nFOR: ",
        "\n\nAGAINST: " ++ r.con ++
          ("\n\n" ++ transcriptFrom (i + 1) (r2 :: rest2)), ?_,
        "\n\nAGAINST: ", "\n\n" ++ transcriptFrom (i + 1) (r2 :: rest2),
        ?_, ?_⟩
      · simp [transcriptFrom, roundBlock, String.append_assoc]
      · simp [String.append_assoc]
      · exact containsInOrder_append_left _ _ _ (ih (i + 1))

/-- The debate loop runs exactly the requested number of rounds. -/
theorem debateLoop_length (llm : Llm) (topic context : String) :
    ∀ (n : Nat) (lp lc : Option String),
      (debateLoop llm topic context n lp lc).length = n := by
  intro n
  induction n with
  | zero => intro lp lc; rfl
  | succ m ih => intro lp lc; simp [debateLoop, ih]

/-- Every debate-loop list is correctly rebuttal-wired. -/
theorem debateLoop_wired (llm : Llm) (topic context : String) :
    ∀ (n : Nat) (lp lc : Option String),
      rebuttalWired llm topic context (debateLoop llm topic context n lp lc) := by
  intro n
  induction n with
  | zero =>
    intro lp lc i r r' hr hr'
    simp [debateLoop] at hr
  | succ m ih =>
    intro lp lc i r r' hr hr'
    cases i with
    | zero =>
      simp only [debateLoop, List.getElem?_cons_zero, Option.some.injEq] at hr
      cases m with
      | zero =>
        simp [debateLoop] at hr'
      | succ k =>
        simp only [debateLoop, List.getElem?_cons_succ,
          List.getElem?_cons_zero, Option.some.injEq] at hr'
        rw [← hr, ← hr']
        exact ⟨rfl, rfl⟩
    | succ j =>
      simp only [debateLoop, List.getElem?_cons_succ] at hr hr'
      exact ih (some (proAgent llm topic context lc))
        (some (conAgent llm topic context lp)) j r r' hr hr'

/-- Claim C8: for every requested round count `R ≥ 1` the debate runs
exactly `R` rounds to completion; round 1 is played from the opening
prompts with no opponent argument; every later round's pro input embeds the
previous round's con output verbatim and vice versa (rebuttal wiring); and
the judge is invoked on a transcript containing all `2R` round texts in
round order. -/
theorem runDebate_structure (llm : Llm) (topic context : String) (R : Nat)
    (hR : 1 ≤ R) :
    (runDebate llm topic context R).rounds.length = R ∧
    (runDebate llm topic context R).rounds[0]? =
      some ⟨llm proSystem (proOpen topic context),
            llm conSystem (conOpen topic context)⟩ ∧
    rebuttalWired llm topic context (runDebate llm topic context R).rounds ∧
    (runDebate llm topic context R).verdict =
      llm judgeSystem
        (judgePrompt topic context (runDebate llm topic context R).rounds) ∧
    containsInOrder
      ((runDebate llm topic context R).rounds.flatMap fun r => [r.pro, r.con])
      (transcript (runDebate llm topic context R).rounds) := by
  obtain ⟨k, rfl⟩ : ∃ k, R = k + 1 := ⟨R - 1, by omega⟩
  refine ⟨debateLoop_length llm topic context _ _ _, ?_,
    debateLoop_wired llm topic context _ _ _, rfl,
    transcriptFrom_contains _ 1⟩
  simp only [runDebate, debateLoop, List.getElem?_cons_zero]
  rfl

/-- Witness for C8 at a concrete deterministic generation stub and R = 2. -/
theorem runDebate_structure_witness :
    (runDebate c8Llm "T" "C" 2).rounds.length = 2 ∧
    (runDebate c8Llm "T" "C" 2).rounds[0]? =
      some ⟨c8Llm proSystem (proOpen "T" "C"),
            c8Llm conSystem (conOpen "T" "C")⟩ ∧
    rebuttalWired c8Llm "T" "C" (runDebate c8Llm "T" "C" 2).rounds ∧
    (runDebate c8Llm "T" "C" 2).verdict =
      c8Llm judgeSystem
        (judgePrompt "T" "C" (runDebate c8Llm "T" "C" 2).rounds) ∧
    containsInOrder
      ((runDebate c8Llm "T" "C" 2).rounds.flatMap fun r => [r.pro, r.con])
      (transcript (runDebate c8Llm "T" "C" 2).rounds) :=
  runDebate_structure c8Llm "T" "C" 2 (by decide)
